import Mathlib

/-!
Verification of the Swiggy order-history downloader (`Home.py`).

The development shallowly embeds the three core functions of the program:

* `process_orders_batch` (source lines 190-209): filters a page of raw
  orders to the delivered ones and appends flattened order rows and item
  rows to the accumulator tables;
* `fetch_orders_page` (source lines 173-188): one page fetch with a single
  retry, after a 2-second backoff, on a transport-level connection error;
* `fetch_swiggy_orders` (source lines 103-171, the part after login):
  the pagination loop driven by `pages = ceil(total_orders/10)` and the
  `offset_id` cursor.

Network effects are abstracted by oracles: a page fetch inside the
pagination loop is a function from the cursor string to either a list of
raw orders or an error (the loop catches every exception and breaks), and
`fetch_orders_page` itself is modelled on the outcomes of its (at most
two) HTTP attempts.  Python's partial operations `orders[-1]` and
`order['order_id']` are modelled explicitly: the run returns an
`Except Crash _` and the `Crash.indexError` / `Crash.keyError` outcomes
stand for the corresponding uncaught Python exceptions.
-/

/-- A raw item dictionary inside a raw order's `order_items` list.
Fields are `Option` because Python's `dict.get` returns `None` for a
missing key. -/
structure RawItem where
  name : Option String
  is_veg : Option Bool
deriving DecidableEq

/-- A raw order dictionary as found in the `orders` list of the API
response.  Every field the program reads is present, as an `Option`
standing for possible absence of the key. -/
structure RawOrder where
  order_id : Option String
  order_total : Option Int
  restaurant_name : Option String
  order_time : Option String
  rain_mode : Option Bool
  on_time : Option Bool
  order_status : Option String
  order_items : Option (List RawItem)
deriving DecidableEq

/-- A row of the orders table, as appended at source line 203:
`[order_id, order_total, restaurant_name, order_time, rain_mode, on_time]`. -/
structure OrderRow where
  order_id : Option String
  order_total : Option Int
  restaurant_name : Option String
  order_time : Option String
  rain_mode : Bool
  on_time : Bool
deriving DecidableEq

/-- A row of the items table, as appended at source line 209:
`[order_id, name, is_veg]`. -/
structure ItemRow where
  order_id : Option String
  name : Option String
  is_veg : Option Bool
deriving DecidableEq

/-- The filter predicate of source line 193:
`i.get('order_status', '') == 'Delivered'`. -/
def isDelivered (o : RawOrder) : Bool :=
  o.order_status.getD "" == "Delivered"

/-- The order row built at source lines 196-203, with the defaults of
`order.get('rain_mode', False)` and `order.get('on_time', True)`. -/
def orderRowOf (o : RawOrder) : OrderRow :=
  ⟨o.order_id, o.order_total, o.restaurant_name, o.order_time,
    o.rain_mode.getD false, o.on_time.getD true⟩

/-- The item rows produced for one order at source lines 205-209.  The
guard `if order.get('order_items'):` skips a missing key (and an empty
list, which contributes no rows either way). -/
def itemRowsOf (o : RawOrder) : List ItemRow :=
  match o.order_items with
  | some items => items.map fun it => ⟨o.order_id, it.name, it.is_veg⟩
  | none => []

/-- The `for order in delivered_orders:` loop of source lines 195-209,
appending to the two accumulator tables one order at a time. -/
def processLoop : List RawOrder → List OrderRow → List ItemRow →
    List OrderRow × List ItemRow
  | [], all_orders, all_items => (all_orders, all_items)
  | o :: rest, all_orders, all_items =>
      processLoop rest (all_orders ++ [orderRowOf o]) (all_items ++ itemRowsOf o)

/-- Source lines 190-209, `process_orders_batch(orders, all_orders,
all_items)`: filter the page to delivered orders, then run the append
loop.  The Python function mutates the two lists in place; the embedding
returns the updated pair. -/
def process_orders_batch (orders : List RawOrder) (all_orders : List OrderRow)
    (all_items : List ItemRow) : List OrderRow × List ItemRow :=
  processLoop (orders.filter isDelivered) all_orders all_items

/-- Outcome of one HTTP attempt inside `fetch_orders_page`: the attempt
either yields the `data.orders` list, raises a transport-level
`requests.exceptions.ConnectionError`, or raises some other exception
(JSON decode failure, `.get` on `None`, ...). -/
inductive Attempt
  | ok (orders : List RawOrder)
  | connError
  | otherError (msg : String)
deriving DecidableEq

/-- An error escaping `fetch_orders_page`.  `connectionError` and
`otherRaw` are exceptions propagating unchanged out of the retry branch
(source lines 182-186); `wrapped` is the
`Exception(f"Error while fetching orders: ...")` raised at line 188. -/
inductive FErr
  | connectionError
  | otherRaw (msg : String)
  | wrapped (msg : String)
deriving DecidableEq

deriving instance DecidableEq for Except

/-- Result of one call of `fetch_orders_page`: the value returned or the
exception raised, together with the number of HTTP attempts made and the
seconds slept before the retry. -/
structure FetchResult where
  result : Except FErr (List RawOrder)
  attempts : Nat
  backoffSecs : Nat
deriving DecidableEq

/-- Source lines 173-188, `fetch_orders_page(session, offset_id)`, on the
outcomes of its first and (when reached) second HTTP attempt.  A
connection error on the first attempt triggers `time.sleep(2)` and one
retry; an exception raised by the retry is raised inside the
`except requests.exceptions.ConnectionError:` handler, so the sibling
`except Exception` clause of the same `try` does not catch it and it
propagates raw.  Any other exception from the first attempt is wrapped
at line 188. -/
def fetch_orders_page (first second : Attempt) : FetchResult :=
  match first with
  | .ok orders => ⟨.ok orders, 1, 0⟩
  | .connError =>
      match second with
      | .ok orders => ⟨.ok orders, 2, 2⟩
      | .connError => ⟨.error .connectionError, 2, 2⟩
      | .otherError m => ⟨.error (.otherRaw m), 2, 2⟩
  | .otherError m => ⟨.error (.wrapped ("Error while fetching orders: " ++ m)), 1, 0⟩

/-- Does a `FetchResult` carry the line-188 wrapper exception? -/
def isWrappedError (r : FetchResult) : Bool :=
  match r.result with
  | .error (.wrapped _) => true
  | _ => false

/-- One recorded call of the page-fetch oracle during a run: the cursor
(`offset_id`) it was given and what it returned or raised. -/
structure FetchCall where
  cursor : String
  result : Except FErr (List RawOrder)
deriving DecidableEq

/-- Final state of a run of the pagination part of `fetch_swiggy_orders`:
the two accumulated tables and the trace of page fetches issued by the
loop (the initial, cursorless fetch is not part of the trace). -/
structure RunResult where
  all_orders : List OrderRow
  all_items : List ItemRow
  trace : List FetchCall
deriving DecidableEq

/-- An uncaught Python exception in the pagination code:
`Crash.indexError` is `orders[-1]` on an empty list (lines 132 and 154),
`Crash.keyError` is `['order_id']` on a dictionary lacking the key. -/
inductive Crash
  | indexError
  | keyError
deriving DecidableEq

/-- Source lines 135-157, the `for i in range(1, pages):` loop.  `n` is
the number of remaining iterations, `server` the page-fetch oracle
(cursor to result).  An exception from the fetch breaks the loop (lines
140-144), an empty page breaks it (lines 146-148); otherwise the batch
is processed and the cursor becomes `orders[-1]['order_id']` (line 154),
whose two partial accesses are modelled by the `Crash` outcomes. -/
def pageLoop : Nat → String → List OrderRow → List ItemRow → List FetchCall →
    (String → Except FErr (List RawOrder)) → Except Crash RunResult
  | 0, _, aO, aI, tr, _ => .ok ⟨aO, aI, tr⟩
  | n + 1, cursor, aO, aI, tr, server =>
      match server cursor with
      | .error e => .ok ⟨aO, aI, tr ++ [⟨cursor, .error e⟩]⟩
      | .ok orders =>
          if orders.length = 0 then .ok ⟨aO, aI, tr ++ [⟨cursor, .ok orders⟩]⟩
          else
            match orders.getLast? with
            | none => .error .indexError
            | some lastOrder =>
                match lastOrder.order_id with
                | none => .error .keyError
                | some nextCursor =>
                    pageLoop n nextCursor (process_orders_batch orders aO aI).1
                      (process_orders_batch orders aO aI).2
                      (tr ++ [⟨cursor, .ok orders⟩]) server

/-- Number of pages computed at source line 127: `pages = ceil(count/10)`. -/
def pages (count : Nat) : Nat := (count + 9) / 10

/-- Source lines 103-171 of `fetch_swiggy_orders`, from the point where
the initial orders response has been parsed: `initOrders` is the
`data.orders` list of the initial response, `count` its `total_orders`,
and `server` the oracle behind `fetch_orders_page` calls of the loop.
An empty initial list returns two empty tables at line 120; otherwise
the initial batch is processed, `pages` computed, the cursor initialised
from `orders[-1]['order_id']` (line 132) and the loop entered. -/
def fetch_swiggy_orders (initOrders : List RawOrder) (count : Nat)
    (server : String → Except FErr (List RawOrder)) : Except Crash RunResult :=
  if initOrders.length = 0 then .ok ⟨[], [], []⟩
  else
    match initOrders.getLast? with
    | none => .error .indexError
    | some lastOrder =>
        match lastOrder.order_id with
        | none => .error .keyError
        | some offset_id =>
            pageLoop (pages count - 1) offset_id
              (process_orders_batch initOrders [] []).1
              (process_orders_batch initOrders [] []).2 [] server

/-- The `order_id` of the last order of a page, i.e. the value of
`orders[-1]['order_id']` when both accesses succeed. -/
def lastOrderIdOf (os : List RawOrder) : Option String :=
  match os.getLast? with
  | some o => o.order_id
  | none => none

/-- The orders carried by a recorded fetch call (`[]` for an error). -/
def pageOrders (call : FetchCall) : List RawOrder :=
  match call.result with
  | .ok os => os
  | .error _ => []

/-- The cursor-chaining invariant over a fetch trace: the first call's
cursor is the last order id of `prev` (the page fetched just before it),
each later call's cursor is the last order id of the orders returned by
the call before it, and no call follows one that raised an error. -/
def cursorsChained : List RawOrder → List FetchCall → Bool
  | _, [] => true
  | prev, call :: rest =>
      (some call.cursor == lastOrderIdOf prev) &&
        (match call.result with
         | .ok os => cursorsChained os rest
         | .error _ => rest.isEmpty)

/-- No fetch call recorded after one that raised an error. -/
def errorsAreFinal : List FetchCall → Bool
  | [] => true
  | call :: rest =>
      match call.result with
      | .error _ => rest.isEmpty
      | .ok _ => errorsAreFinal rest

theorem processLoop_eq (l : List RawOrder) (aO : List OrderRow) (aI : List ItemRow) :
    processLoop l aO aI = (aO ++ l.map orderRowOf, aI ++ l.flatMap itemRowsOf) := by
  induction l generalizing aO aI with
  | nil => simp [processLoop]
  | cons o rest ih => simp [processLoop, ih]

theorem process_orders_batch_eq (orders : List RawOrder) (aO : List OrderRow)
    (aI : List ItemRow) :
    process_orders_batch orders aO aI =
      (aO ++ (orders.filter isDelivered).map orderRowOf,
       aI ++ (orders.filter isDelivered).flatMap itemRowsOf) := by
  simp [process_orders_batch, processLoop_eq]

theorem process_orders_batch_append (orders : List RawOrder) (aO : List OrderRow)
    (aI : List ItemRow) :
    process_orders_batch orders aO aI =
      (aO ++ (process_orders_batch orders [] []).1,
       aI ++ (process_orders_batch orders [] []).2) := by
  simp [process_orders_batch_eq]

theorem itemRowsOf_length (o : RawOrder) :
    (itemRowsOf o).length = (o.order_items.getD []).length := by
  cases h : o.order_items <;> simp [itemRowsOf, h]

theorem itemRowsOf_fun_eq :
    itemRowsOf = fun o : RawOrder =>
      (o.order_items.getD []).map fun it =>
        (⟨o.order_id, it.name, it.is_veg⟩ : ItemRow) := by
  funext o
  cases h : o.order_items <;> simp [itemRowsOf, h]

theorem getLast?_of_length_ne_zero {α : Type} {l : List α} (h : ¬ l.length = 0) :
    ∃ a, l.getLast? = some a := by
  have hne : l ≠ [] := by
    intro hnil
    exact h (by simp [hnil])
  have := List.getLast?_isSome.mpr hne
  cases hl : l.getLast? with
  | none => rw [hl] at this; simp at this
  | some a => exact ⟨a, rfl⟩

theorem pageLoop_trace_len (n : Nat) :
    ∀ (cursor : String) (aO : List OrderRow) (aI : List ItemRow)
      (tr : List FetchCall) (server : String → Except FErr (List RawOrder))
      (r : RunResult),
      pageLoop n cursor aO aI tr server = .ok r → r.trace.length ≤ tr.length + n := by
  induction n with
  | zero =>
      intro cursor aO aI tr server r h
      simp [pageLoop] at h
      rw [← h]
      simp
  | succ n ih =>
      intro cursor aO aI tr server r h
      unfold pageLoop at h
      cases hs : server cursor with
      | error e =>
          rw [hs] at h
          simp at h
          rw [← h]
          simp
      | ok orders =>
          rw [hs] at h
          by_cases hlen : orders.length = 0
          · simp [hlen] at h
            rw [← h]
            simp
          · simp [hlen] at h
            cases hlast : orders.getLast? with
            | none => rw [hlast] at h; simp at h
            | some lastOrder =>
                rw [hlast] at h
                simp only at h
                cases hid : lastOrder.order_id with
                | none => rw [hid] at h; simp at h
                | some nextCursor =>
                    rw [hid] at h
                    simp only at h
                    have := ih nextCursor _ _ _ server r h
                    simp at this
                    omega

theorem pageLoop_no_indexError (n : Nat) :
    ∀ (cursor : String) (aO : List OrderRow) (aI : List ItemRow)
      (tr : List FetchCall) (server : String → Except FErr (List RawOrder)),
      pageLoop n cursor aO aI tr server ≠ .error .indexError := by
  induction n with
  | zero =>
      intro cursor aO aI tr server h
      simp [pageLoop] at h
  | succ n ih =>
      intro cursor aO aI tr server h
      unfold pageLoop at h
      cases hs : server cursor with
      | error e => rw [hs] at h; simp at h
      | ok orders =>
          rw [hs] at h
          by_cases hlen : orders.length = 0
          · simp [hlen] at h
          · simp [hlen] at h
            obtain ⟨lastOrder, hlast⟩ := getLast?_of_length_ne_zero hlen
            rw [hlast] at h
            simp only at h
            cases hid : lastOrder.order_id with
            | none => rw [hid] at h; simp at h
            | some nextCursor =>
                rw [hid] at h
                simp only at h
                exact ih nextCursor _ _ _ server h

theorem pageLoop_structure (n : Nat) :
    ∀ (cursor : String) (aO : List OrderRow) (aI : List ItemRow)
      (tr : List FetchCall) (server : String → Except FErr (List RawOrder))
      (r : RunResult),
      pageLoop n cursor aO aI tr server = .ok r →
      ∃ tl, r.trace = tr ++ tl ∧
        (∀ prev, lastOrderIdOf prev = some cursor → cursorsChained prev tl = true) ∧
        errorsAreFinal tl = true ∧
        r.all_orders =
          aO ++ tl.flatMap (fun call => (process_orders_batch (pageOrders call) [] []).1) ∧
        r.all_items =
          aI ++ tl.flatMap (fun call => (process_orders_batch (pageOrders call) [] []).2) := by
  induction n with
  | zero =>
      intro cursor aO aI tr server r h
      simp [pageLoop] at h
      subst h
      exact ⟨[], by simp, fun prev _ => by simp [cursorsChained], by simp [errorsAreFinal],
        by simp, by simp⟩
  | succ n ih =>
      intro cursor aO aI tr server r h
      unfold pageLoop at h
      cases hs : server cursor with
      | error e =>
          rw [hs] at h
          simp at h
          subst h
          refine ⟨[⟨cursor, .error e⟩], by simp, ?_, by simp [errorsAreFinal], ?_, ?_⟩
          · intro prev hprev
            simp [cursorsChained, hprev]
          · simp [pageOrders, process_orders_batch, processLoop]
          · simp [pageOrders, process_orders_batch, processLoop]
      | ok orders =>
          rw [hs] at h
          by_cases hlen : orders.length = 0
          · simp [hlen] at h
            subst h
            have horders : orders = [] := List.length_eq_zero.mp hlen
            refine ⟨[⟨cursor, .ok orders⟩], by simp, ?_, by simp [errorsAreFinal], ?_, ?_⟩
            · intro prev hprev
              simp [cursorsChained, hprev, horders]
            · simp [pageOrders, horders, process_orders_batch, processLoop]
            · simp [pageOrders, horders, process_orders_batch, processLoop]
          · simp [hlen] at h
            obtain ⟨lastOrder, hlast⟩ := getLast?_of_length_ne_zero hlen
            rw [hlast] at h
            simp only at h
            cases hid : lastOrder.order_id with
            | none => rw [hid] at h; simp at h
            | some nextCursor =>
                rw [hid] at h
                simp only at h
                obtain ⟨tl', htr, hchain, hfin, hO, hI⟩ := ih nextCursor _ _ _ server r h
                refine ⟨⟨cursor, .ok orders⟩ :: tl', by simp [htr], ?_,
                  by simp [errorsAreFinal, hfin], ?_, ?_⟩
                · intro prev hprev
                  simp [cursorsChained, hprev]
                  exact hchain orders (by simp [lastOrderIdOf, hlast, hid])
                · rw [hO, process_orders_batch_append]
                  simp [pageOrders]
                · rw [hI, process_orders_batch_append]
                  simp [pageOrders]

theorem errorsAreFinal_last :
    ∀ (l : List FetchCall), errorsAreFinal l = true →
      ∀ (i : Nat), i < l.length →
        ∀ (e : FErr), (l.getD i ⟨"", Except.ok []⟩).result = .error e →
          i + 1 = l.length := by
  intro l
  induction l with
  | nil => intro _ i hi; simp at hi
  | cons c rest ih =>
      intro hfin i hi e he
      unfold errorsAreFinal at hfin
      cases i with
      | zero =>
          simp at he
          rw [he] at hfin
          simp only at hfin
          have : rest = [] := by
            cases rest with
            | nil => rfl
            | cons x xs => simp at hfin
          simp [this]
      | succ j =>
          cases hc : c.result with
          | error e2 =>
              rw [hc] at hfin
              simp only at hfin
              have : rest = [] := by
                cases rest with
                | nil => rfl
                | cons x xs => simp at hfin
              subst this
              simp at hi
          | ok os =>
              rw [hc] at hfin
              simp only at hfin
              have hj : j < rest.length := by simpa using hi
              have := ih hfin j hj e (by simpa using he)
              simpa using this

theorem pages_eq_ceil (n : Nat) : pages n = ⌈(n : ℚ) / 10⌉₊ := by
  apply le_antisymm
  · have hle : (n : ℚ) / 10 ≤ (⌈(n : ℚ) / 10⌉₊ : ℚ) := Nat.le_ceil _
    have h10 : (n : ℚ) ≤ 10 * (⌈(n : ℚ) / 10⌉₊ : ℚ) := by
      rw [div_le_iff₀ (by norm_num : (0:ℚ) < 10)] at hle
      linarith
    have hnat : n ≤ 10 * ⌈(n : ℚ) / 10⌉₊ := by exact_mod_cast h10
    unfold pages
    omega
  · rw [Nat.ceil_le, div_le_iff₀ (by norm_num : (0:ℚ) < 10)]
    have hnat : n ≤ pages n * 10 := by unfold pages; omega
    exact_mod_cast hnat

/-- C1: for every input page, `process_orders_batch` produces exactly as
many order rows as the page has orders with status "Delivered", and a
number of item rows equal to the sum, over those delivered orders, of
the lengths of their item lists; a delivered order with no items (key
absent or empty list) contributes zero item rows. -/
theorem claim_C1_extract_counts (orders : List RawOrder) :
    (process_orders_batch orders [] []).1.length =
      (orders.filter isDelivered).length ∧
    (process_orders_batch orders [] []).2.length =
      ((orders.filter isDelivered).map fun o => (o.order_items.getD []).length).sum := by
  rw [process_orders_batch_eq]
  refine ⟨by simp, ?_⟩
  have hf : (List.length ∘ itemRowsOf) =
      fun o : RawOrder => (o.order_items.getD []).length := funext itemRowsOf_length
  simp [List.length_flatMap, ← hf]

/-- C5: a run whose initial orders response carries an empty orders list
returns two empty tables with an empty fetch trace (no pagination
attempts), as a successful result rather than an error or a crash. -/
theorem claim_C5_zero_orders (count : Nat)
    (server : String → Except FErr (List RawOrder)) :
    fetch_swiggy_orders [] count server = .ok ⟨[], [], []⟩ := rfl

/-- C7: the extractor keeps exactly the orders whose status field equals
"Delivered", substitutes `false` for a missing `rain_mode` and `true`
for a missing `on_time`, and appends the retained order rows and their
flattened item rows in input order. -/
theorem claim_C7_filtering_defaults_order (orders : List RawOrder)
    (aO : List OrderRow) (aI : List ItemRow) :
    process_orders_batch orders aO aI =
      (aO ++ (orders.filter fun o => o.order_status.getD "" == "Delivered").map
          (fun o => ⟨o.order_id, o.order_total, o.restaurant_name, o.order_time,
            o.rain_mode.getD false, o.on_time.getD true⟩),
       aI ++ (orders.filter fun o => o.order_status.getD "" == "Delivered").flatMap
          (fun o => (o.order_items.getD []).map fun it =>
            ⟨o.order_id, it.name, it.is_veg⟩)) := by
  rw [process_orders_batch_eq, itemRowsOf_fun_eq]
  rfl

/-- C8: the extractor is a pure function of its input page: the rows a
call appends past the accumulators it was given depend only on the page,
not on any prior call or external state, so re-running it on the same
page yields an identical delta. -/
theorem claim_C8_extract_pure (orders : List RawOrder) (aO : List OrderRow)
    (aI : List ItemRow) :
    ((process_orders_batch orders aO aI).1.drop aO.length =
        (process_orders_batch orders [] []).1 ∧
      (process_orders_batch orders aO aI).2.drop aI.length =
        (process_orders_batch orders [] []).2) := by
  simp [process_orders_batch_eq]

/-- C9: referential integrity of the two tables: every item row carries
the `order_id` of the delivered order that owns it, hence its `order_id`
occurs in the orders table, and the item stems from a delivered member
of the input page. -/
theorem claim_C9_referential_integrity (orders : List RawOrder) (it : ItemRow)
    (h : it ∈ (process_orders_batch orders [] []).2) :
    it.order_id ∈ (process_orders_batch orders [] []).1.map OrderRow.order_id ∧
    ∃ o ∈ orders, isDelivered o = true ∧ o.order_id = it.order_id := by
  rw [process_orders_batch_eq] at h ⊢
  simp only [List.nil_append] at h ⊢
  rw [List.mem_flatMap] at h
  obtain ⟨o, ho, hit⟩ := h
  have hmem := List.mem_filter.mp ho
  have hoid : it.order_id = o.order_id := by
    cases hoi : o.order_items with
    | none => simp [itemRowsOf, hoi] at hit
    | some items =>
        simp [itemRowsOf, hoi] at hit
        obtain ⟨x, _, hx⟩ := hit
        rw [← hx]
  refine ⟨?_, o, hmem.1, hmem.2, hoid.symm⟩
  rw [List.mem_map]
  exact ⟨orderRowOf o, List.mem_map_of_mem _ ho, by rw [hoid]; rfl⟩

/-- C10: the `orders[-1]` access computing the pagination cursor is
always applied to a non-empty list: no run of the pipeline, whatever the
initial page, the order count and the server behaviour, ends in the
`IndexError` crash (the `KeyError` crash for a missing `order_id` key is
a separate outcome and is not excluded by this claim). -/
theorem claim_C10_cursor_index_safe (initOrders : List RawOrder) (count : Nat)
    (server : String → Except FErr (List RawOrder)) :
    fetch_swiggy_orders initOrders count server ≠ .error .indexError := by
  intro h
  unfold fetch_swiggy_orders at h
  by_cases hlen : initOrders.length = 0
  · simp [hlen] at h
  · simp [hlen] at h
    obtain ⟨lastOrder, hlast⟩ := getLast?_of_length_ne_zero hlen
    rw [hlast] at h
    simp only at h
    cases hid : lastOrder.order_id with
    | none => rw [hid] at h; simp at h
    | some offset_id =>
        rw [hid] at h
        simp only at h
        exact pageLoop_no_indexError _ _ _ _ _ _ h

/-- C3: the paginator computes `pages` as the ceiling of
`total_orders / 10` and, in every completed run, issues at most
`pages - 1` page fetches beyond the initial one, so pagination
terminates. -/
theorem claim_C3_page_count_bound (initOrders : List RawOrder) (count : Nat)
    (server : String → Except FErr (List RawOrder)) (r : RunResult)
    (h : fetch_swiggy_orders initOrders count server = .ok r) :
    pages count = ⌈(count : ℚ) / 10⌉₊ ∧ r.trace.length ≤ pages count - 1 := by
  refine ⟨pages_eq_ceil count, ?_⟩
  unfold fetch_swiggy_orders at h
  by_cases hlen : initOrders.length = 0
  · simp [hlen] at h
    rw [← h]
    simp
  · simp [hlen] at h
    obtain ⟨lastOrder, hlast⟩ := getLast?_of_length_ne_zero hlen
    rw [hlast] at h
    simp only at h
    cases hid : lastOrder.order_id with
    | none => rw [hid] at h; simp at h
    | some offset_id =>
        rw [hid] at h
        simp only at h
        have := pageLoop_trace_len _ _ _ _ _ _ _ h
        simpa using this

/-- C4: in every completed run, the cursor passed to each page fetch of
the loop equals the `order_id` of the last element of the page fetched
just before it (the initial page for the first loop fetch), and no
fetch follows one that raised an error. -/
theorem claim_C4_cursor_chained (initOrders : List RawOrder) (count : Nat)
    (server : String → Except FErr (List RawOrder)) (r : RunResult)
    (h : fetch_swiggy_orders initOrders count server = .ok r) :
    cursorsChained initOrders r.trace = true := by
  unfold fetch_swiggy_orders at h
  by_cases hlen : initOrders.length = 0
  · simp [hlen] at h
    rw [← h]
    simp [cursorsChained]
  · simp [hlen] at h
    obtain ⟨lastOrder, hlast⟩ := getLast?_of_length_ne_zero hlen
    rw [hlast] at h
    simp only at h
    cases hid : lastOrder.order_id with
    | none => rw [hid] at h; simp at h
    | some offset_id =>
        rw [hid] at h
        simp only at h
        obtain ⟨tl, htr, hchain, _, _, _⟩ := pageLoop_structure _ _ _ _ _ _ _ h
        rw [htr, List.nil_append]
        exact hchain initOrders (by simp [lastOrderIdOf, hlast, hid])

/-- C6: in every completed run in which some page fetch of the loop
raised an error, that fetch is the last one of the trace (pagination
stopped), and the returned tables still hold the rows of the initial
page and of every page processed before the failure. -/
theorem claim_C6_partial_results_kept (initOrders : List RawOrder) (count : Nat)
    (server : String → Except FErr (List RawOrder)) (r : RunResult)
    (i : Nat) (e : FErr)
    (h : fetch_swiggy_orders initOrders count server = .ok r)
    (hi : i < r.trace.length)
    (he : (r.trace.getD i ⟨"", Except.ok []⟩).result = .error e) :
    i + 1 = r.trace.length ∧
    r.all_orders = (process_orders_batch initOrders [] []).1 ++
      r.trace.flatMap (fun call => (process_orders_batch (pageOrders call) [] []).1) ∧
    r.all_items = (process_orders_batch initOrders [] []).2 ++
      r.trace.flatMap (fun call => (process_orders_batch (pageOrders call) [] []).2) := by
  unfold fetch_swiggy_orders at h
  by_cases hlen : initOrders.length = 0
  · simp [hlen] at h
    rw [← h] at hi
    simp at hi
  · simp [hlen] at h
    obtain ⟨lastOrder, hlast⟩ := getLast?_of_length_ne_zero hlen
    rw [hlast] at h
    simp only at h
    cases hid : lastOrder.order_id with
    | none => rw [hid] at h; simp at h
    | some offset_id =>
        rw [hid] at h
        simp only at h
        obtain ⟨tl, htr, _, hfin, hO, hI⟩ := pageLoop_structure _ _ _ _ _ _ _ h
        rw [List.nil_append] at htr
        rw [htr] at hi he
        refine ⟨htr ▸ errorsAreFinal_last tl hfin i hi e he, ?_, ?_⟩
        · rw [hO, htr]
        · rw [hI, htr]

/-- C2 counterexample: when the first attempt raises a connection error
and the retried attempt raises one too, the error reaching the caller is
the raw connection error, not the wrapped "Error while fetching orders"
exception of line 188 — the wrapping clause the claim asserts for the
retried failure does not fire, because an exception raised inside an
`except` handler is not caught by a sibling handler of the same `try`. -/
theorem claim_C2_counterexample :
    (fetch_orders_page .connError .connError).result =
      .error FErr.connectionError ∧
    isWrappedError (fetch_orders_page .connError .connError) = false :=
  ⟨rfl, rfl⟩

/-- C2 (amended): a transport-level connection error on the first
attempt causes exactly one retry (two attempts) after a fixed 2-second
backoff, and a first attempt that does not raise a connection error is
never retried; if the retried fetch fails again, the failure propagates
to the caller unwrapped; any other exception during the first attempt is
wrapped as the line-188 page-fetch error; in either case the error
reaches the pagination loop, which aborts, keeping the partial results
accumulated so far. -/
theorem claim_C2_retry_policy (second : Attempt) (os : List RawOrder)
    (m : String) (n : Nat) (cursor : String) (aO : List OrderRow)
    (aI : List ItemRow) (tr : List FetchCall) (e : FErr) :
    ((fetch_orders_page .connError second).attempts = 2 ∧
      (fetch_orders_page .connError second).backoffSecs = 2) ∧
    ((fetch_orders_page (.ok os) second).attempts = 1 ∧
      (fetch_orders_page (.ok os) second).backoffSecs = 0 ∧
      (fetch_orders_page (.otherError m) second).attempts = 1) ∧
    fetch_orders_page (.ok os) second = ⟨.ok os, 1, 0⟩ ∧
    fetch_orders_page .connError (.ok os) = ⟨.ok os, 2, 2⟩ ∧
    fetch_orders_page .connError .connError = ⟨.error .connectionError, 2, 2⟩ ∧
    fetch_orders_page .connError (.otherError m) = ⟨.error (.otherRaw m), 2, 2⟩ ∧
    fetch_orders_page (.otherError m) second =
      ⟨.error (.wrapped ("Error while fetching orders: " ++ m)), 1, 0⟩ ∧
    pageLoop (n + 1) cursor aO aI tr (fun _ => .error e) =
      .ok ⟨aO, aI, tr ++ [⟨cursor, .error e⟩]⟩ := by
  refine ⟨?_, ⟨rfl, rfl, rfl⟩, rfl, rfl, rfl, rfl, rfl, ?_⟩
  · cases second <;> exact ⟨rfl, rfl⟩
  · rfl

/-- Witness for C3: a run with `total_orders = 23` (so `pages = 3`): the
initial page holds one delivered order and the first loop fetch raises a
connection error, giving a trace of length 1 ≤ pages - 1 = 2. -/
theorem claim_C3_witness :
    fetch_swiggy_orders
        [⟨some "a1", none, none, none, none, none, some "Delivered", none⟩] 23
        (fun _ => Except.error FErr.connectionError) =
      .ok ⟨[⟨some "a1", none, none, none, false, true⟩], [],
        [⟨"a1", Except.error FErr.connectionError⟩]⟩ ∧
    (pages 23 = ⌈(23 : ℚ) / 10⌉₊ ∧
      (RunResult.mk [⟨some "a1", none, none, none, false, true⟩] []
        [⟨"a1", Except.error FErr.connectionError⟩]).trace.length ≤ pages 23 - 1) :=
  ⟨rfl, claim_C3_page_count_bound
    [⟨some "a1", none, none, none, none, none, some "Delivered", none⟩] 23
    (fun _ => Except.error FErr.connectionError) _ rfl⟩

/-- Witness for C4: a run whose initial page ends in order "a1", whose
fetch at cursor "a1" returns a page ending in order "a2", and whose
fetch at cursor "a2" returns the empty page: the recorded trace is
chained as the claim demands. -/
theorem claim_C4_witness :
    fetch_swiggy_orders
        [⟨some "a1", none, none, none, none, none, some "Delivered", none⟩] 25
        (fun c => if c == "a1" then
            Except.ok [⟨some "a2", none, none, none, none, none, some "Delivered", none⟩]
          else Except.ok []) =
      .ok ⟨[⟨some "a1", none, none, none, false, true⟩,
            ⟨some "a2", none, none, none, false, true⟩], [],
        [⟨"a1", Except.ok [⟨some "a2", none, none, none, none, none,
            some "Delivered", none⟩]⟩,
         ⟨"a2", Except.ok []⟩]⟩ ∧
    cursorsChained
      [⟨some "a1", none, none, none, none, none, some "Delivered", none⟩]
      (RunResult.mk [⟨some "a1", none, none, none, false, true⟩,
          ⟨some "a2", none, none, none, false, true⟩] []
        [⟨"a1", Except.ok [⟨some "a2", none, none, none, none, none,
            some "Delivered", none⟩]⟩,
         ⟨"a2", Except.ok []⟩]).trace = true :=
  ⟨rfl, claim_C4_cursor_chained
    [⟨some "a1", none, none, none, none, none, some "Delivered", none⟩] 25
    (fun c => if c == "a1" then
        Except.ok [⟨some "a2", none, none, none, none, none, some "Delivered", none⟩]
      else Except.ok []) _ rfl⟩

/-- Witness for C6: a run whose first loop fetch raises the wrapped
error "boom": the error entry closes the trace and the tables keep the
rows extracted from the initial page. -/
theorem claim_C6_witness :
    fetch_swiggy_orders
        [⟨some "a1", none, none, none, none, none, some "Delivered", none⟩] 23
        (fun _ => Except.error (FErr.wrapped "boom")) =
      .ok ⟨[⟨some "a1", none, none, none, false, true⟩], [],
        [⟨"a1", Except.error (FErr.wrapped "boom")⟩]⟩ ∧
    (0 : Nat) < (RunResult.mk [⟨some "a1", none, none, none, false, true⟩] []
        [⟨"a1", Except.error (FErr.wrapped "boom")⟩]).trace.length ∧
    ((RunResult.mk [⟨some "a1", none, none, none, false, true⟩] []
        [⟨"a1", Except.error (FErr.wrapped "boom")⟩]).trace.getD 0
        ⟨"", Except.ok []⟩).result = .error (FErr.wrapped "boom") ∧
    (0 + 1 = (RunResult.mk [⟨some "a1", none, none, none, false, true⟩] []
        [⟨"a1", Except.error (FErr.wrapped "boom")⟩]).trace.length ∧
      (RunResult.mk [⟨some "a1", none, none, none, false, true⟩] []
        [⟨"a1", Except.error (FErr.wrapped "boom")⟩]).all_orders =
        (process_orders_batch
          [⟨some "a1", none, none, none, none, none, some "Delivered", none⟩]
          [] []).1 ++
        (RunResult.mk [⟨some "a1", none, none, none, false, true⟩] []
          [⟨"a1", Except.error (FErr.wrapped "boom")⟩]).trace.flatMap
          (fun call => (process_orders_batch (pageOrders call) [] []).1) ∧
      (RunResult.mk [⟨some "a1", none, none, none, false, true⟩] []
        [⟨"a1", Except.error (FErr.wrapped "boom")⟩]).all_items =
        (process_orders_batch
          [⟨some "a1", none, none, none, none, none, some "Delivered", none⟩]
          [] []).2 ++
        (RunResult.mk [⟨some "a1", none, none, none, false, true⟩] []
          [⟨"a1", Except.error (FErr.wrapped "boom")⟩]).trace.flatMap
          (fun call => (process_orders_batch (pageOrders call) [] []).2)) :=
  ⟨rfl, by decide, rfl, claim_C6_partial_results_kept
    [⟨some "a1", none, none, none, none, none, some "Delivered", none⟩] 23
    (fun _ => Except.error (FErr.wrapped "boom")) _ 0 (FErr.wrapped "boom")
    rfl (by decide) rfl⟩

/-- Witness for C9: a page holding one delivered order "o1" with one
item: that item row's `order_id` occurs in the orders table and stems
from a delivered order of the page. -/
theorem claim_C9_witness :
    (⟨some "o1", some "dosa", some true⟩ : ItemRow) ∈
      (process_orders_batch
        [⟨some "o1", none, none, none, none, none, some "Delivered",
          some [⟨some "dosa", some true⟩]⟩] [] []).2 ∧
    ((⟨some "o1", some "dosa", some true⟩ : ItemRow).order_id ∈
      (process_orders_batch
        [⟨some "o1", none, none, none, none, none, some "Delivered",
          some [⟨some "dosa", some true⟩]⟩] [] []).1.map OrderRow.order_id ∧
    ∃ o ∈ [⟨some "o1", none, none, none, none, none, some "Delivered",
          some [⟨some "dosa", some true⟩]⟩],
      isDelivered o = true ∧
      RawOrder.order_id o = (⟨some "o1", some "dosa", some true⟩ : ItemRow).order_id) :=
  ⟨by decide, claim_C9_referential_integrity
    [⟨some "o1", none, none, none, none, none, some "Delivered",
      some [⟨some "dosa", some true⟩]⟩]
    ⟨some "o1", some "dosa", some true⟩ (by decide)⟩

/-- Witness for C10 at a concrete input: a run over a one-order initial
page whose every loop fetch raises a connection error does not end in
the empty-list indexing crash. -/
theorem claim_C10_witness :
    fetch_swiggy_orders
        [⟨some "w1", none, none, none, none, none, some "Delivered", none⟩] 23
        (fun _ => Except.error FErr.connectionError) ≠
      .error .indexError :=
  claim_C10_cursor_index_safe
    [⟨some "w1", none, none, none, none, none, some "Delivered", none⟩] 23
    (fun _ => Except.error FErr.connectionError)
